import Mathlib

/-!
Verification of the subtitle-synchronization toolkit: shallow embedding of
the data model, the timestamp codec, the SRT parser, and the three alignment
analyses (boundary finder, issue classifier, range verifier), together with
theorems settling the claims of the specification about them.

Python integers are modelled as Lean Int (arbitrary precision in both),
lists as List, dicts keyed by int as lookup functions built from the list
they were comprehended from.  A Python function that can raise an uncaught
exception is modelled with an Option result (none = the exception).
-/

namespace SrtSync

/-- Subtitle record: one cue of a track (dataclass Subtitle of the source). -/
structure Subtitle where
  index : Int
  start_time : String
  end_time : String
  text : String
  timestamp_ms : Int
deriving DecidableEq

/-- Python str.strip character test (whitespace). -/
def isSpaceChar (c : Char) : Bool := c.isWhitespace

/-- Python str.strip on a character list: whitespace removed at both ends. -/
def trimChars (cs : List Char) : List Char :=
  ((cs.dropWhile isSpaceChar).reverse.dropWhile isSpaceChar).reverse

/-- Python str.strip. -/
def pyStrip (s : String) : String := String.mk (trimChars s.toList)

/-- Whether the pattern (first argument) is an initial run of the text. -/
def headMatches : List Char → List Char → Bool
  | [], _ => true
  | _ :: _, [] => false
  | p :: ps, c :: cs => p == c && headMatches ps cs

/-- Left-to-right non-overlapping split of a character list on a separator,
with fuel for structural termination (fuel at least the text length never
runs out, each step consumes a character). -/
def splitGo (sep : List Char) : Nat → List Char → List Char → List (List Char)
  | 0, rest, acc => [acc.reverse ++ rest]
  | fuel + 1, rest, acc =>
    match rest with
    | [] => [acc.reverse]
    | c :: cs =>
      if headMatches sep (c :: cs) then
        acc.reverse :: splitGo sep fuel (cs.drop (sep.length - 1)) []
      else
        splitGo sep fuel cs (c :: acc)

/-- Split of a character list on a separator. -/
def splitChars (cs sep : List Char) : List (List Char) :=
  splitGo sep cs.length cs []

/-- Python str.split with an explicit separator. -/
def pySplit (s sep : String) : List String :=
  (splitChars s.toList sep.toList).map String.mk

/-- Join of character lists with a separator between consecutive parts. -/
def joinChars (sep : List Char) : List (List Char) → List Char
  | [] => []
  | [x] => x
  | x :: y :: rest => x ++ sep ++ joinChars sep (y :: rest)

/-- Python sep.join(parts). -/
def pyJoin (sep : String) (parts : List String) : String :=
  String.mk (joinChars sep.toList (parts.map String.toList))

/-- Python str.replace, realized as split followed by join. -/
def pyReplace (s pat target : String) : String :=
  pyJoin target (pySplit s pat)

/-- Value of a decimal digit character, none when not a digit. -/
def decDigit? (c : Char) : Option Nat :=
  if c.isDigit then some (c.toNat - 48) else none

/-- Decimal value of a run of digit characters, none when any is not a digit. -/
def decDigitsVal? (cs : List Char) : Option Nat :=
  cs.foldl
    (fun acc c =>
      match acc, decDigit? c with
      | some a, some d => some (a * 10 + d)
      | _, _ => none)
    (some 0)

/-- Nonempty all-digit run, none otherwise. -/
def pyDigits? (cs : List Char) : Option Nat :=
  if cs.isEmpty then none else decDigitsVal? cs

/-- Model of Python int(str): surrounding whitespace stripped, optional sign,
then a nonempty run of decimal digits; none models the ValueError. -/
def pyInt? (s : String) : Option Int :=
  match trimChars s.toList with
  | [] => none
  | c :: cs =>
    if c = Char.ofNat 45 then (pyDigits? cs).map (fun n => -(n : Int))
    else if c = Char.ofNat 43 then (pyDigits? cs).map (fun n => (n : Int))
    else (pyDigits? (c :: cs)).map (fun n => (n : Int))

/-- The four components of a timestamp after the comma-to-colon normalization:
split on the colon, each part put through Python int. -/
def pyComponents (time_str : String) : List (Option Int) :=
  (pySplit (pyReplace time_str "," ":") ":").map pyInt?

/-- parse_timestamp of the source: HH:MM:SS,mmm to milliseconds; none models
the uncaught ValueError when the text does not give exactly four integers. -/
def parse_timestamp (time_str : String) : Option Int :=
  match pyComponents time_str with
  | [some hours, some minutes, some seconds, some ms] =>
    some (((hours * 3600 + minutes * 60 + seconds) * 1000) + ms)
  | _ => none

/-- Containment of a pattern in a string, via splitOn: the Python test
pat in s. -/
def strContains (s pat : String) : Bool :=
  2 ≤ (pySplit s pat).length

/-- The lines of a block: the strip and newline split of the source loop. -/
def blockLines (block : String) : List String :=
  pySplit (pyStrip block) "\n"

/-- Body of the per-block loop of parse_srt_file: none models every continue
(fewer than 3 lines, non-integer sequence line, missing separator, clock that
does not decode, or a time line that does not split in exactly two).  The
sequence line is lines[0], the time line lines[1], the text the remaining
lines joined back with newlines. -/
def parseBlock (block : String) : Option Subtitle :=
  if (blockLines block).length < 3 then none
  else
    match pyInt? ((blockLines block).headD "") with
    | none => none
    | some idx =>
      if strContains ((blockLines block).getD 1 "") "-->" then
        match pySplit ((blockLines block).getD 1 "") " --> " with
        | [st, et] =>
          match parse_timestamp (pyStrip st) with
          | none => none
          | some ms =>
            some ⟨idx, pyStrip st, pyStrip et,
              pyJoin "\n" ((blockLines block).drop 2), ms⟩
        | _ => none
      else none

/-- Removal of a leading byte-order marker, the content[1:] of the source. -/
def stripBOM (cs : List Char) : List Char :=
  match cs with
  | c :: rest => if c = Char.ofNat 65279 then rest else c :: rest
  | [] => []

/-- parse_srt_file of the source, applied to the file content (the I/O of
reading the file is outside the model): strip the BOM, split on blank lines,
keep the blocks that parse.  Total: the Python loop catches every per-block
error, so no input aborts the parse. -/
def parse_srt_content (raw : String) : List Subtitle :=
  let content := String.mk (stripBOM (trimChars raw.toList))
  (pySplit content "\n\n").filterMap
    (fun b => if pyStrip b = "" then none else parseBlock b)

/-- Lookup by sequence number: the dict comprehension on index, whose
last-write-wins on duplicate keys is the getLast? of the filter. -/
def byIndex (subs : List Subtitle) (i : Int) : Option Subtitle :=
  (subs.filter (fun s => s.index == i)).getLast?

/-- Largest sequence number of a track: max over the dict keys; none models
the ValueError of max on an empty dict. -/
def maxIndex : List Subtitle → Option Int
  | [] => none
  | x :: xs => some (xs.foldl (fun a s => max a s.index) x.index)

/-- Loop body of find_last_good_sync at sequence number i, on the state
(last_good, consecutive_good): a missing record on either side resets the
streak, a time difference within 500 ms extends it, and last_good advances
to i once the streak reaches 5. -/
def syncStep (enI esI : Int → Option Subtitle) (st : Nat × Nat) (i : Nat) : Nat × Nat :=
  match enI (i : Int), esI (i : Int) with
  | some en, some es =>
    if (en.timestamp_ms - es.timestamp_ms).natAbs ≤ 500 then
      (if 5 ≤ st.2 + 1 then i else st.1, st.2 + 1)
    else (st.1, 0)
  | _, _ => (st.1, 0)

/-- The loop of find_last_good_sync run over sequence numbers 1..n in order. -/
def syncLoop (enI esI : Int → Option Subtitle) : Nat → Nat × Nat
  | 0 => (0, 0)
  | k + 1 => syncStep enI esI (syncLoop enI esI k) (k + 1)

/-- find_last_good_sync of the source: none models the uncaught ValueError of
max over an empty index mapping when a track has no records; otherwise the
loop runs over 1..min of the two largest sequence numbers and the final
last_good is returned. -/
def find_last_good_sync (en_subs es_subs : List Subtitle) : Option Int :=
  match maxIndex en_subs, maxIndex es_subs with
  | some mEn, some mEs =>
    some (((syncLoop (byIndex en_subs) (byIndex es_subs) (min mEn mEs).toNat).1 : Nat) : Int)
  | _, _ => none

/-- Both records present at a sequence number with time difference within
500 ms: the condition that extends the streak of the boundary finder. -/
def goodAt (enI esI : Int → Option Subtitle) (i : Int) : Bool :=
  match enI i, esI i with
  | some en, some es => decide ((en.timestamp_ms - es.timestamp_ms).natAbs ≤ 500)
  | _, _ => false

/-- Soundness property of the returned boundary: it is 0 or a sequence
number L of streak length at least 5, with both records present and within
500 ms at every sequence number of L-4..L. -/
def goodBoundary (en_subs es_subs : List Subtitle) (L : Int) : Prop :=
  L = 0 ∨
    (5 ≤ L ∧ ∀ j : Int, L - 4 ≤ j → j ≤ L →
      ∃ e s, byIndex en_subs j = some e ∧ byIndex es_subs j = some s ∧
        (e.timestamp_ms - s.timestamp_ms).natAbs ≤ 500)

/-- A track whose record at each sequence number 1..N is f applied to it:
the generic identical-track family of the boundary-monotonicity property. -/
def idTrack (N : Nat) (f : Int → Subtitle) : List Subtitle :=
  (List.range N).map (fun k : Nat => f ((k : Int) + 1))

/-- Concatenation of the images of a list map, used to characterize the
append-only accumulation loops of the classifier and the range verifier. -/
def listFlat (f : α → List β) : List α → List β
  | [] => []
  | x :: xs => f x ++ listFlat f xs

/-- The candidate records carrying exactly the given timestamp, in track
order: the es_by_time dict entry of the classifier ([] when the key is
absent). -/
def atTime (es_subs : List Subtitle) (t : Int) : List Subtitle :=
  es_subs.filter (fun s => s.timestamp_ms == t)

/-- Key accumulation in first-occurrence order (Python dict key order). -/
def keysAux (acc : List Int) : List Int → List Int
  | [] => acc
  | t :: ts => keysAux (if acc.contains t then acc else acc ++ [t]) ts

/-- The distinct timestamps of a track in first-occurrence order: the key
order of the es_by_time dict. -/
def timeKeys (subs : List Subtitle) : List Int :=
  keysAux [] (subs.map (fun s => s.timestamp_ms))

/-- The close_matches scan of the classifier: every candidate record whose
dict timestamp key is within 500 ms of the reference timestamp, grouped by
key in dict key order. -/
def closeMatches (es_subs : List Subtitle) (t : Int) : List Subtitle :=
  listFlat (atTime es_subs) ((timeKeys es_subs).filter (fun k => (k - t).natAbs ≤ 500))

/-- Python min with a key function over a nonempty list: the first element
attaining the least key wins ties. -/
def pyMinBy (f : Subtitle → Nat) (x : Subtitle) (xs : List Subtitle) : Subtitle :=
  xs.foldl (fun a y => if f y < f a then y else a) x

/-- The four diagnostic buckets of find_sync_issues. -/
structure Issues where
  missing_in_es : List Subtitle
  duplicates_in_es : List Subtitle
  time_drifts : List (Subtitle × Subtitle)
  index_mismatches : List (Subtitle × Subtitle)
deriving DecidableEq

/-- The initial empty buckets. -/
def emptyIssues : Issues := ⟨[], [], [], []⟩

/-- Bucket-wise concatenation. -/
def addIssues (a b : Issues) : Issues :=
  ⟨a.missing_in_es ++ b.missing_in_es,
   a.duplicates_in_es ++ b.duplicates_in_es,
   a.time_drifts ++ b.time_drifts,
   a.index_mismatches ++ b.index_mismatches⟩

/-- What one reference record contributes to the buckets, following the body
of the classifier loop: exact timestamp match present leads to duplicate
flags for all but the first sharer and an index-mismatch pair when the
sequence numbers differ; otherwise the 500 ms scan either fails (missing) or
yields a nearest candidate, recorded as a drift pair when beyond 200 ms. -/
def refContrib (es_subs : List Subtitle) (r : Subtitle) : Issues :=
  match atTime es_subs r.timestamp_ms with
  | [] =>
    match closeMatches es_subs r.timestamp_ms with
    | [] => ⟨[r], [], [], []⟩
    | c :: cs =>
      let best := pyMinBy (fun x => (x.timestamp_ms - r.timestamp_ms).natAbs) c cs
      if 200 < (best.timestamp_ms - r.timestamp_ms).natAbs then
        ⟨[], [], [(r, best)], []⟩
      else emptyIssues
  | e0 :: rest =>
    ⟨[], rest, [], if r.index ≠ e0.index then [(r, e0)] else []⟩

/-- find_sync_issues of the source: the loop over the reference records,
each appending its contribution to the buckets. -/
def find_sync_issues (en_subs es_subs : List Subtitle) : Issues :=
  en_subs.foldl (fun iss r => addIssues iss (refContrib es_subs r)) emptyIssues

/-- Membership of a reference record in the missing bucket. -/
def inMissingBucket (en_subs es_subs : List Subtitle) (r : Subtitle) : Prop :=
  r ∈ (find_sync_issues en_subs es_subs).missing_in_es

/-- Membership of a reference record in the drift bucket, as the reference
side of a pair. -/
def inDriftBucket (en_subs es_subs : List Subtitle) (r : Subtitle) : Prop :=
  ∃ p ∈ (find_sync_issues en_subs es_subs).time_drifts, p.1 = r

/-- Membership of a reference record in the index-mismatch bucket, as the
reference side of a pair. -/
def inMismatchBucket (en_subs es_subs : List Subtitle) (r : Subtitle) : Prop :=
  ∃ p ∈ (find_sync_issues en_subs es_subs).index_mismatches, p.1 = r

/-- Classifier completeness for one reference record: it lies in exactly one
of the three reference dispositions, or in none of them (exact match with
equal index, or an acceptable near match). -/
def exactlyOneBucket (en_subs es_subs : List Subtitle) (r : Subtitle) : Prop :=
  (inMissingBucket en_subs es_subs r ∧ ¬inDriftBucket en_subs es_subs r ∧
    ¬inMismatchBucket en_subs es_subs r) ∨
  (¬inMissingBucket en_subs es_subs r ∧ inDriftBucket en_subs es_subs r ∧
    ¬inMismatchBucket en_subs es_subs r) ∨
  (¬inMissingBucket en_subs es_subs r ∧ ¬inDriftBucket en_subs es_subs r ∧
    inMismatchBucket en_subs es_subs r) ∨
  (¬inMissingBucket en_subs es_subs r ∧ ¬inDriftBucket en_subs es_subs r ∧
    ¬inMismatchBucket en_subs es_subs r)

/-- Critical findings of the range verifier, tagged with the sequence number
they were reported for (the data of the formatted error strings). -/
inductive VErr where
  | missingEn (i : Int)
  | missingEs (i : Int)
  | desync (i : Int) (d : Nat)
  | chrono (i : Int)
deriving DecidableEq

/-- Non-critical findings of the range verifier. -/
inductive VWarn where
  | minor (i : Int) (d : Nat)
deriving DecidableEq

/-- The sequence number a critical finding was reported for. -/
def vErrIdx : VErr → Int
  | .missingEn i => i
  | .missingEs i => i
  | .desync i _ => i
  | .chrono i => i

/-- The chronological-order check of the range verifier at sequence number
i: past the first index of the window, a candidate record strictly earlier
than the candidate record at i-1 is a critical finding. -/
def chronoErrs (esI : Int → Option Subtitle) (start i : Int) (es : Subtitle) : List VErr :=
  if start < i then
    match esI (i - 1) with
    | some prev => if es.timestamp_ms < prev.timestamp_ms then [VErr.chrono i] else []
    | none => []
  else []

/-- One iteration of the range-verifier loop: the critical findings, the
warnings and the perfectly-synced count it contributes at sequence number i.
A missing record on either side ends the iteration before the
chronological-order check (the continue of the source). -/
def stepReport (enI esI : Int → Option Subtitle) (start i : Int) :
    List VErr × List VWarn × Nat :=
  match enI i with
  | none => ([VErr.missingEn i], [], 0)
  | some en =>
    match esI i with
    | none => ([VErr.missingEs i], [], 0)
    | some es =>
      let d := (en.timestamp_ms - es.timestamp_ms).natAbs
      if 100 < d then ([VErr.desync i d] ++ chronoErrs esI start i es, [], 0)
      else if 50 < d then (chronoErrs esI start i es, [VWarn.minor i d], 0)
      else (chronoErrs esI start i es, [], 1)

/-- Accumulated report of the range verifier. -/
structure VReport where
  errors : List VErr
  warnings : List VWarn
  good : Nat
deriving DecidableEq

/-- Accumulation of one iteration into the running report. -/
def vStep (enI esI : Int → Option Subtitle) (start : Int) (st : VReport) (i : Int) : VReport :=
  ⟨st.errors ++ (stepReport enI esI start i).1,
   st.warnings ++ (stepReport enI esI start i).2.1,
   st.good + (stepReport enI esI start i).2.2⟩

/-- The sequence numbers start..stop of the verified window, in order. -/
def vRange (a b : Int) : List Int :=
  (List.range (b + 1 - a).toNat).map (fun k : Nat => a + (k : Int))

/-- The full report of verify_range_sync over the window. -/
def verifyReport (en_subs es_subs : List Subtitle) (a b : Int) : VReport :=
  (vRange a b).foldl (vStep (byIndex en_subs) (byIndex es_subs) a) ⟨[], [], 0⟩

/-- verify_range_sync of the source: its return value, true exactly when the
critical-findings list ended empty. -/
def verify_range_sync (en_subs es_subs : List Subtitle) (a b : Int) : Bool :=
  (verifyReport en_subs es_subs a b).errors.isEmpty

/-- Time difference of the two records at a sequence number, when both are
present. -/
def syncDiff? (enI esI : Int → Option Subtitle) (i : Int) : Option Nat :=
  match enI i, esI i with
  | some en, some es => some (en.timestamp_ms - es.timestamp_ms).natAbs
  | _, _ => none

/-- Both records present and within 50 ms: what the verifier counts as
perfectly synced. -/
def perfectAt (enI esI : Int → Option Subtitle) (i : Int) : Bool :=
  match enI i, esI i with
  | some en, some es => decide ((en.timestamp_ms - es.timestamp_ms).natAbs ≤ 50)
  | _, _ => false

/-- The per-index classification of the range verifier over a window: a
desync finding at i exactly for a difference beyond 100 ms, a minor
deviation warning at i exactly for a difference beyond 50 and within
100 ms, the perfectly-synced count totalling the indices within 50 ms, and
the returned boolean true exactly for an empty critical-findings list. -/
def rangeClassified (en_subs es_subs : List Subtitle) (a b : Int) : Prop :=
  (∀ i d, a ≤ i → i ≤ b →
    syncDiff? (byIndex en_subs) (byIndex es_subs) i = some d →
      (VErr.desync i d ∈ (verifyReport en_subs es_subs a b).errors ↔ 100 < d) ∧
      (VWarn.minor i d ∈ (verifyReport en_subs es_subs a b).warnings ↔
        (50 < d ∧ d ≤ 100))) ∧
  (verifyReport en_subs es_subs a b).good =
    ((vRange a b).filter (perfectAt (byIndex en_subs) (byIndex es_subs))).length ∧
  (verify_range_sync en_subs es_subs a b = true ↔
    (verifyReport en_subs es_subs a b).errors = [])

/-- A block is malformed when it has fewer than 3 lines, a non-integer
sequence line, no separator token on the time line, or a start clock that
does not decode. -/
def badBlock (b : String) : Prop :=
  (blockLines b).length < 3 ∨
  pyInt? ((blockLines b).headD "") = none ∨
  strContains ((blockLines b).getD 1 "") "-->" = false ∨
  (∃ st et, pySplit ((blockLines b).getD 1 "") " --> " = [st, et] ∧
    parse_timestamp (pyStrip st) = none)

/-- Reference track of the concrete classifier scenario, parsed from file
content with records #1 at 00:00:01,000 and #2 at 00:00:02,000. -/
def enScenario : List Subtitle :=
  parse_srt_content
    "1\n00:00:01,000 --> 00:00:01,400\nHello\n\n2\n00:00:02,000 --> 00:00:02,400\nWorld"

/-- Candidate track of the concrete classifier scenario, parsed from file
content with records #1 at 00:00:01,050 and #2 at 00:00:02,900. -/
def esScenario : List Subtitle :=
  parse_srt_content
    "1\n00:00:01,050 --> 00:00:01,450\nHola\n\n2\n00:00:02,900 --> 00:00:03,300\nMundo"

/-- Reference track of the ordering-check counterexample: only sequence
number 4 is present. -/
def enGap : List Subtitle := [⟨4, "a", "b", "t", 1000⟩]

/-- Candidate track of the ordering-check counterexample: records 4 and 5
present with the record at 5 strictly earlier. -/
def esGap : List Subtitle := [⟨4, "a", "b", "t", 1000⟩, ⟨5, "a", "b", "t", 500⟩]

/-- Identical reference and candidate tracks of the ordering-check witness,
in-tolerance everywhere, with the record at sequence 5 earlier than the
record at sequence 4. -/
def trackDip : List Subtitle :=
  [⟨4, "a", "b", "t", 1000⟩, ⟨5, "a", "b", "t", 950⟩, ⟨6, "a", "b", "t", 2000⟩]

/-- Five-record track with contiguous sequence numbers 1..5, all at the
same clock. -/
def track5 : List Subtitle := idTrack 5 (fun i => ⟨i, "c", "d", "x", 0⟩)

/-- Single-record tracks 500+ ms apart, for the all-desynced witness. -/
def soloA : List Subtitle := [⟨1, "c", "d", "x", 0⟩]

/-- Single-record track at 1000 ms, paired with soloA. -/
def soloB : List Subtitle := [⟨1, "c", "d", "x", 1000⟩]

/-- Reference track with two records sharing timestamp 100 (duplicate
flagging witness). -/
def enDup : List Subtitle := [⟨1, "c", "d", "x", 100⟩, ⟨2, "c", "d", "y", 100⟩]

/-- Candidate track with two records sharing timestamp 100 (duplicate
flagging witness). -/
def esDup : List Subtitle := [⟨1, "c", "d", "x", 100⟩, ⟨2, "c", "d", "z", 100⟩]

/-- Window tracks for the range-verifier classification witness: sequence
numbers 1..2 with differences 0 and 75 ms. -/
def enWin : List Subtitle := [⟨1, "c", "d", "x", 0⟩, ⟨2, "c", "d", "x", 1000⟩]

/-- Candidate side of the range-verifier classification witness. -/
def esWin : List Subtitle := [⟨1, "c", "d", "x", 0⟩, ⟨2, "c", "d", "x", 1075⟩]

/-- A malformed block whose time line has no separator token. -/
def badSepBlock : String := "1\nno separator here\ntext"

/-- File content holding one well-formed block and one block with a missing
time separator. -/
def mixedContent : String :=
  "1\n00:00:01,000 --> 00:00:02,000\nHello\n\n2\n00:00:03,000 00:00:04,000\nWorld"

/-- Membership in a concatenation of images. -/
theorem mem_listFlat {α β : Type} {f : α → List β} {b : β} {l : List α} :
    b ∈ listFlat f l ↔ ∃ a ∈ l, b ∈ f a := by
  induction l with
  | nil => simp [listFlat]
  | cons x xs ih => simp [listFlat, List.mem_append, ih]

/-- The classifier loop accumulates exactly the per-record contributions,
bucket by bucket, in reference order. -/
theorem foldl_addIssues (es_subs : List Subtitle) (l : List Subtitle) (init : Issues) :
    l.foldl (fun iss r => addIssues iss (refContrib es_subs r)) init =
      addIssues init
        ⟨listFlat (fun r => (refContrib es_subs r).missing_in_es) l,
         listFlat (fun r => (refContrib es_subs r).duplicates_in_es) l,
         listFlat (fun r => (refContrib es_subs r).time_drifts) l,
         listFlat (fun r => (refContrib es_subs r).index_mismatches) l⟩ := by
  induction l generalizing init with
  | nil => cases init; simp [listFlat, addIssues]
  | cons x xs ih =>
    simp only [List.foldl_cons]
    rw [ih]
    cases init
    simp [addIssues, listFlat, List.append_assoc]

/-- Closed form of find_sync_issues as per-record contributions. -/
theorem find_sync_issues_eq (en_subs es_subs : List Subtitle) :
    find_sync_issues en_subs es_subs =
      ⟨listFlat (fun r => (refContrib es_subs r).missing_in_es) en_subs,
       listFlat (fun r => (refContrib es_subs r).duplicates_in_es) en_subs,
       listFlat (fun r => (refContrib es_subs r).time_drifts) en_subs,
       listFlat (fun r => (refContrib es_subs r).index_mismatches) en_subs⟩ := by
  unfold find_sync_issues
  rw [foldl_addIssues]
  simp [addIssues, emptyIssues]

/-- A record in a missing contribution is the contributing reference record,
and it had neither an exact nor a close candidate match. -/
theorem refContrib_missing_mem {es_subs : List Subtitle} {x r : Subtitle}
    (h : r ∈ (refContrib es_subs x).missing_in_es) :
    r = x ∧ atTime es_subs x.timestamp_ms = [] ∧
      closeMatches es_subs x.timestamp_ms = [] := by
  rcases hat : atTime es_subs x.timestamp_ms with _ | ⟨e0, rest⟩
  · rcases hcl : closeMatches es_subs x.timestamp_ms with _ | ⟨c, cs⟩
    · simp [refContrib, hat, hcl] at h
      exact ⟨h, rfl, rfl⟩
    · simp [refContrib, hat, hcl, emptyIssues, apply_ite] at h
  · simp [refContrib, hat, emptyIssues] at h

/-- A pair in a drift contribution has the contributing reference record
first, which had no exact match but did have a close one. -/
theorem refContrib_drift_mem {es_subs : List Subtitle} {x : Subtitle}
    {p : Subtitle × Subtitle} (h : p ∈ (refContrib es_subs x).time_drifts) :
    p.1 = x ∧ atTime es_subs x.timestamp_ms = [] ∧
      closeMatches es_subs x.timestamp_ms ≠ [] := by
  rcases hat : atTime es_subs x.timestamp_ms with _ | ⟨e0, rest⟩
  · rcases hcl : closeMatches es_subs x.timestamp_ms with _ | ⟨c, cs⟩
    · simp [refContrib, hat, hcl] at h
    · simp only [refContrib, hat, hcl, emptyIssues] at h
      split_ifs at h <;> simp at h
      exact ⟨by rw [h], rfl, by simp⟩
  · simp [refContrib, hat] at h

/-- A pair in an index-mismatch contribution has the contributing reference
record first, which had an exact candidate match. -/
theorem refContrib_mismatch_mem {es_subs : List Subtitle} {x : Subtitle}
    {p : Subtitle × Subtitle} (h : p ∈ (refContrib es_subs x).index_mismatches) :
    p.1 = x ∧ atTime es_subs x.timestamp_ms ≠ [] := by
  rcases hat : atTime es_subs x.timestamp_ms with _ | ⟨e0, rest⟩
  · rcases hcl : closeMatches es_subs x.timestamp_ms with _ | ⟨c, cs⟩
    · simp [refContrib, hat, hcl] at h
    · simp only [refContrib, hat, hcl, emptyIssues] at h
      split_ifs at h <;> simp at h
  · simp [refContrib, hat] at h
    obtain ⟨-, rfl⟩ := h
    exact ⟨rfl, by simp [hat]⟩

/-- A record in the missing bucket had neither an exact nor a close match. -/
theorem inMissingBucket_spec {en_subs es_subs : List Subtitle} {r : Subtitle}
    (h : inMissingBucket en_subs es_subs r) :
    atTime es_subs r.timestamp_ms = [] ∧ closeMatches es_subs r.timestamp_ms = [] := by
  unfold inMissingBucket at h
  rw [find_sync_issues_eq] at h
  obtain ⟨x, -, hmem⟩ := mem_listFlat.1 h
  obtain ⟨rfl, h1, h2⟩ := refContrib_missing_mem hmem
  exact ⟨h1, h2⟩

/-- A record in the drift bucket had no exact match but did have a close
one. -/
theorem inDriftBucket_spec {en_subs es_subs : List Subtitle} {r : Subtitle}
    (h : inDriftBucket en_subs es_subs r) :
    atTime es_subs r.timestamp_ms = [] ∧ closeMatches es_subs r.timestamp_ms ≠ [] := by
  obtain ⟨p, hp, hp1⟩ := h
  rw [find_sync_issues_eq] at hp
  obtain ⟨x, -, hmem⟩ := mem_listFlat.1 hp
  obtain ⟨hx, h1, h2⟩ := refContrib_drift_mem hmem
  rw [hp1] at hx
  rw [hx]
  exact ⟨h1, h2⟩

/-- A record in the index-mismatch bucket had an exact match. -/
theorem inMismatchBucket_spec {en_subs es_subs : List Subtitle} {r : Subtitle}
    (h : inMismatchBucket en_subs es_subs r) :
    atTime es_subs r.timestamp_ms ≠ [] := by
  obtain ⟨p, hp, hp1⟩ := h
  rw [find_sync_issues_eq] at hp
  obtain ⟨x, -, hmem⟩ := mem_listFlat.1 hp
  obtain ⟨hx, h1⟩ := refContrib_mismatch_mem hmem
  rw [hp1] at hx
  rw [hx]
  exact h1

/-- Claim C1.  The issue classifier places each reference record in exactly
one disposition: the missing bucket, the drift bucket (as the reference side
of a pair), the index-mismatch bucket (as the reference side of a pair), or
none of the buckets; no reference record appears in two buckets. -/
theorem classifier_exactly_one_bucket (en_subs es_subs : List Subtitle)
    (r : Subtitle) (_hr : r ∈ en_subs) : exactlyOneBucket en_subs es_subs r := by
  have nAB : ¬(inMissingBucket en_subs es_subs r ∧ inDriftBucket en_subs es_subs r) :=
    fun ⟨a, b⟩ => (inDriftBucket_spec b).2 (inMissingBucket_spec a).2
  have nAC : ¬(inMissingBucket en_subs es_subs r ∧ inMismatchBucket en_subs es_subs r) :=
    fun ⟨a, c⟩ => inMismatchBucket_spec c (inMissingBucket_spec a).1
  have nBC : ¬(inDriftBucket en_subs es_subs r ∧ inMismatchBucket en_subs es_subs r) :=
    fun ⟨b, c⟩ => inMismatchBucket_spec c (inDriftBucket_spec b).1
  unfold exactlyOneBucket
  tauto

/-- Witness for claim C1 at a concrete input: the first record of the
concrete scenario lies in exactly one disposition. -/
theorem classifier_exactly_one_bucket_witness :
    exactlyOneBucket enScenario esScenario ⟨1, "00:00:01,000", "00:00:01,400", "Hello", 1000⟩ :=
  classifier_exactly_one_bucket enScenario esScenario
    ⟨1, "00:00:01,000", "00:00:01,400", "Hello", 1000⟩ (by decide)

/-- The window list contains exactly the sequence numbers from start to
stop. -/
theorem mem_vRange {a b i : Int} : i ∈ vRange a b ↔ a ≤ i ∧ i ≤ b := by
  simp only [vRange, List.mem_map, List.mem_range]
  constructor
  · rintro ⟨k, hk, rfl⟩
    omega
  · rintro ⟨h1, h2⟩
    exact ⟨(i - a).toNat, by omega, by omega⟩


/-- The verifier loop accumulates exactly the per-index contributions. -/
theorem foldl_vStep (enI esI : Int → Option Subtitle) (start : Int)
    (l : List Int) (init : VReport) :
    l.foldl (vStep enI esI start) init =
      ⟨init.errors ++ listFlat (fun i => (stepReport enI esI start i).1) l,
       init.warnings ++ listFlat (fun i => (stepReport enI esI start i).2.1) l,
       init.good + (l.map (fun i => (stepReport enI esI start i).2.2)).sum⟩ := by
  induction l generalizing init with
  | nil => cases init; simp [listFlat]
  | cons x xs ih =>
    simp only [List.foldl_cons]
    rw [ih]
    cases init
    simp [vStep, listFlat, List.append_assoc, Nat.add_assoc]

/-- Closed form of the verifier report as per-index contributions. -/
theorem verifyReport_eq (en_subs es_subs : List Subtitle) (a b : Int) :
    verifyReport en_subs es_subs a b =
      ⟨listFlat (fun i => (stepReport (byIndex en_subs) (byIndex es_subs) a i).1) (vRange a b),
       listFlat (fun i => (stepReport (byIndex en_subs) (byIndex es_subs) a i).2.1) (vRange a b),
       ((vRange a b).map
         (fun i => (stepReport (byIndex en_subs) (byIndex es_subs) a i).2.2)).sum⟩ := by
  unfold verifyReport
  rw [foldl_vStep]
  simp

/-- Every critical finding of the order check at i is the order violation
at i. -/
theorem mem_chronoErrs {esI : Int → Option Subtitle} {start i : Int} {es : Subtitle}
    {e : VErr} (h : e ∈ chronoErrs esI start i es) : e = VErr.chrono i := by
  unfold chronoErrs at h
  split_ifs at h
  · cases hp : esI (i - 1) with
    | none => rw [hp] at h; simp at h
    | some prev =>
      rw [hp] at h
      simp at h
      exact h.2
  · simp at h

/-- Every critical finding contributed at index i is tagged with i. -/
theorem stepReport_err_idx {enI esI : Int → Option Subtitle} {start i : Int}
    {e : VErr} (h : e ∈ (stepReport enI esI start i).1) : vErrIdx e = i := by
  unfold stepReport at h
  cases hen : enI i with
  | none => rw [hen] at h; simp at h; simp [h, vErrIdx]
  | some en =>
    rw [hen] at h
    cases hes : esI i with
    | none => rw [hes] at h; simp at h; simp [h, vErrIdx]
    | some es =>
      rw [hes] at h
      simp only at h
      split_ifs at h
      · simp [List.mem_append] at h
        rcases h with h | h
        · simp [h, vErrIdx]
        · rw [mem_chronoErrs h]; rfl
      · rw [mem_chronoErrs h]; rfl
      · rw [mem_chronoErrs h]; rfl

/-- Every warning contributed at index i is tagged with i. -/
theorem stepReport_warn_idx {enI esI : Int → Option Subtitle} {start i j : Int}
    {d : Nat} (h : VWarn.minor j d ∈ (stepReport enI esI start i).2.1) : j = i := by
  unfold stepReport at h
  cases hen : enI i with
  | none => rw [hen] at h; simp at h
  | some en =>
    rw [hen] at h
    cases hes : esI i with
    | none => rw [hes] at h; simp at h
    | some es =>
      rw [hes] at h
      simp only at h
      split_ifs at h <;> simp at h
      exact h.1

/-- At an index where both records are present, a desync finding is
contributed there exactly when the difference is beyond 100 ms. -/
theorem desync_mem_stepReport {enI esI : Int → Option Subtitle} {start i : Int}
    {d : Nat} (hd : syncDiff? enI esI i = some d) :
    VErr.desync i d ∈ (stepReport enI esI start i).1 ↔ 100 < d := by
  unfold syncDiff? at hd
  cases hen : enI i with
  | none => rw [hen] at hd; simp at hd
  | some en =>
    rw [hen] at hd
    cases hes : esI i with
    | none => rw [hes] at hd; simp at hd
    | some es =>
      rw [hes] at hd
      simp only [Option.some.injEq] at hd
      unfold stepReport
      rw [hen, hes]
      simp only
      split_ifs with h1 h2
      · simp only [List.mem_append, List.mem_singleton]
        constructor
        · intro _
          omega
        · intro _
          left
          rw [hd]
      · constructor
        · intro hmem
          cases mem_chronoErrs hmem
        · intro hgt
          rw [← hd] at hgt
          omega
      · constructor
        · intro hmem
          cases mem_chronoErrs hmem
        · intro hgt
          rw [← hd] at hgt
          omega

/-- At an index where both records are present, a minor-deviation warning is
contributed there exactly when the difference is beyond 50 and within
100 ms. -/
theorem minor_mem_stepReport {enI esI : Int → Option Subtitle} {start i : Int}
    {d : Nat} (hd : syncDiff? enI esI i = some d) :
    VWarn.minor i d ∈ (stepReport enI esI start i).2.1 ↔ (50 < d ∧ d ≤ 100) := by
  unfold syncDiff? at hd
  cases hen : enI i with
  | none => rw [hen] at hd; simp at hd
  | some en =>
    rw [hen] at hd
    cases hes : esI i with
    | none => rw [hes] at hd; simp at hd
    | some es =>
      rw [hes] at hd
      simp only [Option.some.injEq] at hd
      unfold stepReport
      rw [hen, hes]
      simp only
      split_ifs with h1 h2 <;> simp <;> omega

/-- The perfectly-synced contribution at an index is the indicator of both
records present within 50 ms. -/
theorem stepReport_good_eq (enI esI : Int → Option Subtitle) (start i : Int) :
    (stepReport enI esI start i).2.2 = if perfectAt enI esI i then 1 else 0 := by
  unfold stepReport perfectAt
  cases hen : enI i with
  | none => simp
  | some en =>
    cases hes : esI i with
    | none => simp
    | some es =>
      simp only
      split_ifs <;> simp_all <;> omega

/-- Sum of an indicator over a list is the length of its filter. -/
theorem sum_indicator_eq_length_filter (p : Int → Bool) (l : List Int) :
    (l.map (fun i => if p i then 1 else 0)).sum = (l.filter p).length := by
  induction l with
  | nil => simp
  | cons x xs ih =>
    by_cases hx : p x <;> simp [hx, ih, Nat.add_comm]

/-- The critical findings of the report, in contribution order. -/
theorem verifyReport_errors (en_subs es_subs : List Subtitle) (a b : Int) :
    (verifyReport en_subs es_subs a b).errors =
      listFlat (fun i => (stepReport (byIndex en_subs) (byIndex es_subs) a i).1)
        (vRange a b) := by
  rw [verifyReport_eq]

/-- The warnings of the report, in contribution order. -/
theorem verifyReport_warnings (en_subs es_subs : List Subtitle) (a b : Int) :
    (verifyReport en_subs es_subs a b).warnings =
      listFlat (fun i => (stepReport (byIndex en_subs) (byIndex es_subs) a i).2.1)
        (vRange a b) := by
  rw [verifyReport_eq]

/-- The perfectly-synced count of the report. -/
theorem verifyReport_good (en_subs es_subs : List Subtitle) (a b : Int) :
    (verifyReport en_subs es_subs a b).good =
      ((vRange a b).map
        (fun i => (stepReport (byIndex en_subs) (byIndex es_subs) a i).2.2)).sum := by
  rw [verifyReport_eq]

/-- Claim C5.  Over a window where both records are present at each index,
the range verifier classifies each index by its time difference d: a desync
critical finding exactly for d beyond 100 ms, a minor-deviation warning
exactly for d beyond 50 and within 100 ms, the perfectly-synced count
totalling the indices within 50 ms; and it returns true exactly when no
critical finding was recorded. -/
theorem verify_range_sync_classification (en_subs es_subs : List Subtitle) (a b : Int)
    (_hp : ∀ i ∈ vRange a b,
      (syncDiff? (byIndex en_subs) (byIndex es_subs) i).isSome) :
    rangeClassified en_subs es_subs a b := by
  refine ⟨?_, ?_, ?_⟩
  · intro i d h1 h2 hd
    constructor
    · rw [verifyReport_errors, mem_listFlat]
      constructor
      · rintro ⟨j, -, hmem⟩
        have hij := stepReport_err_idx hmem
        simp only [vErrIdx] at hij
        subst hij
        exact (desync_mem_stepReport hd).1 hmem
      · intro hgt
        exact ⟨i, mem_vRange.2 ⟨h1, h2⟩, (desync_mem_stepReport hd).2 hgt⟩
    · rw [verifyReport_warnings, mem_listFlat]
      constructor
      · rintro ⟨j, -, hmem⟩
        have hij := stepReport_warn_idx hmem
        subst hij
        exact (minor_mem_stepReport hd).1 hmem
      · intro hb
        exact ⟨i, mem_vRange.2 ⟨h1, h2⟩, (minor_mem_stepReport hd).2 hb⟩
  · rw [verifyReport_good]
    have hmap :
        (vRange a b).map
          (fun i => (stepReport (byIndex en_subs) (byIndex es_subs) a i).2.2) =
        (vRange a b).map
          (fun i => if perfectAt (byIndex en_subs) (byIndex es_subs) i then 1 else 0) :=
      List.map_congr_left
        (fun i _ => stepReport_good_eq (byIndex en_subs) (byIndex es_subs) a i)
    rw [hmap, sum_indicator_eq_length_filter]
  · unfold verify_range_sync
    rw [List.isEmpty_iff]

/-- Witness for claim C5 at a concrete window: sequence numbers 1..2, both
present, with differences 0 and 75 ms. -/
theorem verify_range_sync_classification_witness : rangeClassified enWin esWin 1 2 :=
  verify_range_sync_classification enWin esWin 1 2 (by decide)

/-- Claim C3 as amended.  Past the first index of the window, a candidate
record strictly earlier than the candidate record one sequence number back
yields a chronological-order critical finding, provided the reference
record at that index is also present (a missing record at the index skips
the ordering check). -/
theorem verify_range_chrono (en_subs es_subs : List Subtitle) (a b i : Int)
    (eni esi prev : Subtitle) (h1 : a < i) (h2 : i ≤ b)
    (hen : byIndex en_subs i = some eni) (hes : byIndex es_subs i = some esi)
    (hprev : byIndex es_subs (i - 1) = some prev)
    (hlt : esi.timestamp_ms < prev.timestamp_ms) :
    VErr.chrono i ∈ (verifyReport en_subs es_subs a b).errors := by
  rw [verifyReport_errors, mem_listFlat]
  refine ⟨i, mem_vRange.2 ⟨by omega, h2⟩, ?_⟩
  have hch : VErr.chrono i ∈ chronoErrs (byIndex es_subs) a i esi := by
    unfold chronoErrs
    rw [if_pos h1, hprev]
    simp [hlt]
  unfold stepReport
  rw [hen, hes]
  simp only
  split_ifs <;> simp [List.mem_append, hch]

/-- Witness for the amended claim C3: identical in-tolerance tracks whose
candidate record at sequence 5 is earlier than the one at sequence 4, over
the window 4..6. -/
theorem verify_range_chrono_witness :
    VErr.chrono 5 ∈ (verifyReport trackDip trackDip 4 6).errors :=
  verify_range_chrono trackDip trackDip 4 6 5
    ⟨5, "a", "b", "t", 950⟩ ⟨5, "a", "b", "t", 950⟩ ⟨4, "a", "b", "t", 1000⟩
    (by decide) (by decide) (by decide) (by decide) (by decide) (by decide)

/-- Counterexample to claim C3 as stated: over the window 4..5, the
candidate records at sequences 5 and 4 are both present with the one at 5
strictly earlier, yet no chronological-order finding is recorded, because
the reference record at 5 is missing and the iteration stops before the
ordering check. -/
theorem verify_range_chrono_counterexample :
    ((4 : Int) < 5 ∧ (5 : Int) ≤ 5 ∧
      byIndex esGap 5 = some ⟨5, "a", "b", "t", 500⟩ ∧
      byIndex esGap 4 = some ⟨4, "a", "b", "t", 1000⟩ ∧
      (500 : Int) < 1000) ∧
    VErr.chrono 5 ∉ (verifyReport enGap esGap 4 5).errors := by
  decide

/-- Index lookup across an appended record: the appended record wins its own
key (last write wins), every other key is unchanged. -/
theorem byIndex_append_singleton (l : List Subtitle) (x : Subtitle) (i : Int) :
    byIndex (l ++ [x]) i = if x.index == i then some x else byIndex l i := by
  unfold byIndex
  by_cases hx : x.index == i <;> simp [List.filter_append, hx]

/-- Largest key across an appended record. -/
theorem maxIndex_append_singleton (l : List Subtitle) (x : Subtitle) :
    maxIndex (l ++ [x]) =
      some (match maxIndex l with
            | none => x.index
            | some m => max m x.index) := by
  cases l with
  | nil => simp [maxIndex]
  | cons z zs => simp [maxIndex, List.foldl_append]

/-- The identical-track family grows by one appended record. -/
theorem idTrack_succ (N : Nat) (f : Int → Subtitle) :
    idTrack (N + 1) f = idTrack N f ++ [f ((N : Int) + 1)] := by
  simp [idTrack, List.range_succ]

/-- Index lookup in the identical-track family: each sequence number 1..N
finds its record. -/
theorem byIndex_idTrack (f : Int → Subtitle) (hf : ∀ i : Int, (f i).index = i) :
    ∀ (N : Nat) (i : Nat), 1 ≤ i → i ≤ N →
      byIndex (idTrack N f) (i : Int) = some (f (i : Int)) := by
  intro N
  induction N with
  | zero => intro i h1 h2; omega
  | succ N ih =>
    intro i h1 h2
    rw [idTrack_succ, byIndex_append_singleton]
    by_cases hi : i = N + 1
    · subst hi
      rw [hf]
      have : ((N : Int) + 1) = ((N + 1 : Nat) : Int) := by push_cast; ring
      rw [this]
      simp
    · have hle : i ≤ N := by omega
      have hne : ((N : Int) + 1) ≠ (i : Int) := by omega
      rw [hf]
      simp only [beq_iff_eq, hne, if_false]
      exact ih i h1 hle

/-- The largest sequence number of the identical-track family is N. -/
theorem maxIndex_idTrack (f : Int → Subtitle) (hf : ∀ i : Int, (f i).index = i) :
    ∀ N : Nat, 1 ≤ N → maxIndex (idTrack N f) = some (N : Int) := by
  intro N
  induction N with
  | zero => intro h; omega
  | succ N ih =>
    intro _
    rw [idTrack_succ, maxIndex_append_singleton]
    by_cases hN : 1 ≤ N
    · rw [ih hN, hf]
      show some (max (N : Int) ((N : Int) + 1)) = some ((N + 1 : Nat) : Int)
      have hmax : max (N : Int) ((N : Int) + 1) = ((N + 1 : Nat) : Int) := by
        push_cast
        omega
      rw [hmax]
    · have : N = 0 := by omega
      subst this
      simp [idTrack, maxIndex, hf]

/-- Running the boundary loop over a self-compared track whose first n
sequence numbers are all present: the streak grows to n and the boundary is
n once the warm-up of 5 is reached. -/
theorem syncLoop_self (T : List Subtitle) :
    ∀ n : Nat, (∀ k : Nat, 1 ≤ k → k ≤ n → ∃ e, byIndex T (k : Int) = some e) →
      syncLoop (byIndex T) (byIndex T) n = (if 5 ≤ n then n else 0, n) := by
  intro n
  induction n with
  | zero => intro _; simp [syncLoop]
  | succ n ih =>
    intro hp
    have hstep : syncLoop (byIndex T) (byIndex T) (n + 1) =
        syncStep (byIndex T) (byIndex T) (syncLoop (byIndex T) (byIndex T) n) (n + 1) := rfl
    rw [hstep, ih (fun k h1 h2 => hp k h1 (by omega))]
    obtain ⟨e, he⟩ := hp (n + 1) (by omega) (by omega)
    unfold syncStep
    rw [he]
    simp only [sub_self, Int.natAbs_zero, Nat.zero_le, if_pos]
    by_cases h5 : 5 ≤ n + 1
    · simp [h5]
    · have : ¬5 ≤ n := by omega
      simp [h5, this]

/-- The boundary loop over tracks that disagree beyond 500 ms at every
sequence number present on both sides never leaves the initial state. -/
theorem syncLoop_allbad (en_subs es_subs : List Subtitle)
    (hbad : ∀ (i : Int) (e s : Subtitle), byIndex en_subs i = some e →
      byIndex es_subs i = some s → 500 < (e.timestamp_ms - s.timestamp_ms).natAbs) :
    ∀ n : Nat, syncLoop (byIndex en_subs) (byIndex es_subs) n = (0, 0) := by
  intro n
  induction n with
  | zero => rfl
  | succ n ih =>
    have hstep : syncLoop (byIndex en_subs) (byIndex es_subs) (n + 1) =
        syncStep (byIndex en_subs) (byIndex es_subs)
          (syncLoop (byIndex en_subs) (byIndex es_subs) n) (n + 1) := rfl
    rw [hstep, ih]
    unfold syncStep
    cases hen : byIndex en_subs ((n + 1 : Nat) : Int) with
    | none => rfl
    | some e =>
      cases hes : byIndex es_subs ((n + 1 : Nat) : Int) with
      | none => rfl
      | some s =>
        have := hbad _ _ _ hen hes
        simp only
        rw [if_neg (by omega)]

/-- A nonempty track has a largest sequence number. -/
theorem maxIndex_isSome {subs : List Subtitle} (h : subs ≠ []) :
    ∃ m, maxIndex subs = some m := by
  cases subs with
  | nil => exact absurd rfl h
  | cons x xs => exact ⟨_, rfl⟩

/-- Claim C4.  Identical tracks with contiguous sequence numbers 1..N and N
at least 5 give boundary N; and nonempty tracks disagreeing beyond 500 ms at
every sequence number present on both sides give boundary 0. -/
theorem find_last_good_sync_boundary :
    (∀ (N : Nat) (f : Int → Subtitle), 5 ≤ N → (∀ i : Int, (f i).index = i) →
      find_last_good_sync (idTrack N f) (idTrack N f) = some (N : Int)) ∧
    (∀ en_subs es_subs : List Subtitle, en_subs ≠ [] → es_subs ≠ [] →
      (∀ (i : Int) (e s : Subtitle), byIndex en_subs i = some e →
        byIndex es_subs i = some s →
        500 < (e.timestamp_ms - s.timestamp_ms).natAbs) →
      find_last_good_sync en_subs es_subs = some 0) := by
  constructor
  · intro N f h5 hf
    unfold find_last_good_sync
    rw [maxIndex_idTrack f hf N (by omega)]
    simp only [min_self]
    have htN : ((N : Int)).toNat = N := by omega
    rw [htN]
    rw [syncLoop_self (idTrack N f) N
      (fun k h1 h2 => ⟨f (k : Int), byIndex_idTrack f hf N k h1 h2⟩)]
    rw [if_pos h5]
  · intro en_subs es_subs hen hes hbad
    obtain ⟨mEn, hmEn⟩ := maxIndex_isSome hen
    obtain ⟨mEs, hmEs⟩ := maxIndex_isSome hes
    have hval : find_last_good_sync en_subs es_subs =
        some (((syncLoop (byIndex en_subs) (byIndex es_subs)
          (min mEn mEs).toNat).1 : Nat) : Int) := by
      unfold find_last_good_sync
      rw [hmEn, hmEs]
    rw [hval, syncLoop_allbad en_subs es_subs hbad]
    rfl

/-- Witness for claim C4: the identical five-record track gives boundary 5,
and the 1000 ms-apart single-record tracks give boundary 0. -/
theorem find_last_good_sync_boundary_witness :
    find_last_good_sync track5 track5 = some 5 ∧
    find_last_good_sync soloA soloB = some 0 := by
  constructor
  · exact find_last_good_sync_boundary.1 5 (fun i => ⟨i, "c", "d", "x", 0⟩)
      (by decide) (fun i => rfl)
  · refine find_last_good_sync_boundary.2 soloA soloB (by decide) (by decide) ?_
    intro i e s he hs
    by_cases hi : i = 1
    · subst hi
      simp [byIndex, soloA, soloB] at he hs
      rw [← he, ← hs]
      decide
    · have h1 : ((1 : Int) == i) = false := by
        simp [hi]
        omega
      simp [byIndex, soloA, h1] at he

/-- Claim C8.  The boundary finder fails (the uncaught ValueError of max
over an empty index mapping, modelled as none) exactly when one of the
tracks has no records: nonemptiness is an unstated precondition. -/
theorem find_last_good_sync_none_iff (en_subs es_subs : List Subtitle) :
    find_last_good_sync en_subs es_subs = none ↔ (en_subs = [] ∨ es_subs = []) := by
  cases en_subs with
  | nil => simp [find_last_good_sync, maxIndex]
  | cons x xs =>
    cases es_subs with
    | nil => simp [find_last_good_sync, maxIndex]
    | cons y ys => simp [find_last_good_sync, maxIndex]

/-- The loop body of the boundary finder in terms of the goodness test. -/
theorem syncStep_eq (enI esI : Int → Option Subtitle) (st : Nat × Nat) (i : Nat) :
    syncStep enI esI st i =
      if goodAt enI esI (i : Int) then
        (if 5 ≤ st.2 + 1 then i else st.1, st.2 + 1)
      else (st.1, 0) := by
  unfold syncStep goodAt
  rcases enI (i : Int) with _ | e <;> rcases esI (i : Int) with _ | s <;> simp only
  · rfl
  · rfl
  · rfl
  · by_cases h : (e.timestamp_ms - s.timestamp_ms).natAbs ≤ 500 <;> simp [h]

/-- Invariant of the boundary-finder loop after k iterations: the streak
counter never exceeds k and covers a run of good sequence numbers ending at
k, and last_good is 0 or a sequence number at least 5 whose last five
sequence numbers are all good. -/
theorem syncLoop_inv (enI esI : Int → Option Subtitle) :
    ∀ k : Nat,
      (syncLoop enI esI k).2 ≤ k ∧
      (∀ j : Nat, k - (syncLoop enI esI k).2 < j → j ≤ k →
        goodAt enI esI (j : Int) = true) ∧
      ((syncLoop enI esI k).1 = 0 ∨
        (5 ≤ (syncLoop enI esI k).1 ∧ (syncLoop enI esI k).1 ≤ k ∧
          ∀ j : Nat, (syncLoop enI esI k).1 - 4 ≤ j → j ≤ (syncLoop enI esI k).1 →
            goodAt enI esI (j : Int) = true)) := by
  intro k
  induction k with
  | zero =>
    refine ⟨Nat.le_refl 0, ?_, Or.inl rfl⟩
    intro j h1 h2
    omega
  | succ k ih =>
    obtain ⟨ih1, ih2, ih3⟩ := ih
    have hstep : syncLoop enI esI (k + 1) =
        syncStep enI esI (syncLoop enI esI k) (k + 1) := rfl
    rw [hstep, syncStep_eq]
    by_cases hg : goodAt enI esI ((k + 1 : Nat) : Int) = true
    · rw [if_pos hg]
      by_cases h5 : 5 ≤ (syncLoop enI esI k).2 + 1
      · rw [if_pos h5]
        refine ⟨?_, ?_, Or.inr ⟨?_, ?_, ?_⟩⟩
        · show (syncLoop enI esI k).2 + 1 ≤ k + 1
          omega
        · intro j h1 h2
          by_cases hj : j = k + 1
          · subst hj; exact hg
          · exact ih2 j (by omega) (by omega)
        · show 5 ≤ k + 1
          omega
        · show k + 1 ≤ k + 1
          omega
        · intro j h1 h2
          by_cases hj : j = k + 1
          · subst hj; exact hg
          · refine ih2 j (by omega) (by omega)
      · rw [if_neg h5]
        refine ⟨?_, ?_, ?_⟩
        · show (syncLoop enI esI k).2 + 1 ≤ k + 1
          omega
        · intro j h1 h2
          by_cases hj : j = k + 1
          · subst hj; exact hg
          · exact ih2 j (by omega) (by omega)
        · rcases ih3 with h0 | ⟨ha, hb, hc⟩
          · exact Or.inl h0
          · exact Or.inr ⟨ha, by omega, hc⟩
    · rw [if_neg hg]
      refine ⟨Nat.zero_le _, ?_, ?_⟩
      · intro j h1 h2
        omega
      · rcases ih3 with h0 | ⟨ha, hb, hc⟩
        · exact Or.inl h0
        · exact Or.inr ⟨ha, by omega, hc⟩

/-- Claim C9.  A returned boundary is sound: it is 0, or a sequence number
at least 5 at whose last five sequence numbers both tracks have a record
and the time differences are within 500 ms. -/
theorem find_last_good_sync_sound (en_subs es_subs : List Subtitle) (L : Int)
    (h : find_last_good_sync en_subs es_subs = some L) :
    goodBoundary en_subs es_subs L := by
  rcases hmEn : maxIndex en_subs with _ | mEn
  · have hval : find_last_good_sync en_subs es_subs = none := by
      unfold find_last_good_sync
      rw [hmEn]
    rw [hval] at h
    cases h
  rcases hmEs : maxIndex es_subs with _ | mEs
  · have hval : find_last_good_sync en_subs es_subs = none := by
      unfold find_last_good_sync
      rw [hmEn, hmEs]
    rw [hval] at h
    cases h
  have hval : find_last_good_sync en_subs es_subs =
      some (((syncLoop (byIndex en_subs) (byIndex es_subs)
        (min mEn mEs).toNat).1 : Nat) : Int) := by
    unfold find_last_good_sync
    rw [hmEn, hmEs]
  rw [hval] at h
  have hL := (Option.some.inj h).symm
  obtain ⟨-, -, h3⟩ := syncLoop_inv (byIndex en_subs) (byIndex es_subs) (min mEn mEs).toNat
  rcases h3 with h0 | ⟨ha, hb, hc⟩
  · left
    rw [hL, h0]
    rfl
  · right
    rw [hL]
    constructor
    · exact_mod_cast ha
    · intro j hj1 hj2
      have hj0 : 0 < j := by omega
      have hgood := hc j.toNat (by omega) (by omega)
      have hjj : ((j.toNat : Nat) : Int) = j := by omega
      rw [hjj] at hgood
      unfold goodAt at hgood
      rcases he : byIndex en_subs j with _ | e
      · rw [he] at hgood
        simp at hgood
      rcases hs : byIndex es_subs j with _ | s
      · rw [he, hs] at hgood
        simp at hgood
      rw [he, hs] at hgood
      simp at hgood
      exact ⟨e, s, rfl, rfl, hgood⟩

/-- Witness for claim C9: the identical five-record track returns boundary
5, which is a sound boundary. -/
theorem find_last_good_sync_sound_witness :
    find_last_good_sync track5 track5 = some 5 ∧ goodBoundary track5 track5 5 :=
  ⟨by decide, find_last_good_sync_sound track5 track5 5 (by decide)⟩

/-- Claim C2.  The concrete scenario: the tracks parse to records at 1000,
2000 versus 1050, 2900 ms, and classification leaves reference record 1
unflagged (nearest candidate 50 ms away, within the 200 ms drift threshold)
while reference record 2 lands in the missing bucket (nearest candidate
900 ms away, outside the 500 ms proximity window); all other buckets are
empty. -/
theorem classifier_concrete_scenario :
    enScenario = [⟨1, "00:00:01,000", "00:00:01,400", "Hello", 1000⟩,
                  ⟨2, "00:00:02,000", "00:00:02,400", "World", 2000⟩] ∧
    esScenario = [⟨1, "00:00:01,050", "00:00:01,450", "Hola", 1050⟩,
                  ⟨2, "00:00:02,900", "00:00:03,300", "Mundo", 2900⟩] ∧
    find_sync_issues enScenario esScenario =
      ⟨[⟨2, "00:00:02,000", "00:00:02,400", "World", 2000⟩], [], [], []⟩ := by
  refine ⟨by decide, by decide, by decide⟩

/-- Claim C6.  The timestamp decoder fails exactly when the text does not
split into four integer components under the comma-to-colon normalization,
and on four components H, M, S, ms it returns ((H*3600 + M*60 + S) * 1000)
+ ms, with no upper bound on the hours. -/
theorem parse_timestamp_spec (t : String) :
    (parse_timestamp t = none ↔
      ¬∃ hours minutes seconds ms : Int,
        pyComponents t = [some hours, some minutes, some seconds, some ms]) ∧
    (∀ hours minutes seconds ms : Int,
      pyComponents t = [some hours, some minutes, some seconds, some ms] →
        parse_timestamp t =
          some (((hours * 3600 + minutes * 60 + seconds) * 1000) + ms)) := by
  constructor
  · unfold parse_timestamp
    split
    next hours minutes seconds ms heq =>
      exact iff_of_false (by simp)
        (fun hh => hh ⟨hours, minutes, seconds, ms, heq⟩)
    next hne =>
      refine iff_of_true rfl ?_
      rintro ⟨a, b, c, d, hc⟩
      exact hne a b c d hc
  · intro hours minutes seconds ms hc
    unfold parse_timestamp
    rw [hc]

/-- Witness for claim C6: a clock with a three-digit hour decodes through
the four components. -/
theorem parse_timestamp_spec_witness :
    pyComponents "123:04:05,678" = [some 123, some 4, some 5, some 678] ∧
    parse_timestamp "123:04:05,678" = some (((123 * 3600 + 4 * 60 + 5) * 1000) + 678) :=
  ⟨by decide, (parse_timestamp_spec "123:04:05,678").2 123 4 5 678 (by decide)⟩

/-- Claim C7.  The parser never aborts: every malformed block (fewer than 3
lines, non-integer sequence line, missing separator, or undecodable start
clock) is skipped, and the file with one well-formed block and one block
missing the separator parses to exactly the well-formed record. -/
theorem parser_leniency :
    (∀ b : String, badBlock b → parseBlock b = none) ∧
    parse_srt_content mixedContent =
      [⟨1, "00:00:01,000", "00:00:02,000", "Hello", 1000⟩] := by
  constructor
  · intro b hb
    rcases hb with hlen | hint | hsep | ⟨st, et, hsplit, hts⟩
    · unfold parseBlock
      rw [if_pos hlen]
    · unfold parseBlock
      by_cases hl : (blockLines b).length < 3
      · rw [if_pos hl]
      · rw [if_neg hl, hint]
    · unfold parseBlock
      by_cases hl : (blockLines b).length < 3
      · rw [if_pos hl]
      · rw [if_neg hl]
        cases hpival : pyInt? ((blockLines b).headD "") with
        | none => rfl
        | some idx =>
          simp only [hsep]
          rfl
    · unfold parseBlock
      by_cases hl : (blockLines b).length < 3
      · rw [if_pos hl]
      · rw [if_neg hl]
        cases hpival : pyInt? ((blockLines b).headD "") with
        | none => rfl
        | some idx =>
          simp only [hsplit, hts, ite_self]
  · decide

/-- Witness for claim C7: a block whose time line lacks the separator is
skipped. -/
theorem parser_leniency_witness :
    badBlock badSepBlock ∧ parseBlock badSepBlock = none := by
  have hb : badBlock badSepBlock := Or.inr (Or.inr (Or.inl (by decide)))
  exact ⟨hb, parser_leniency.1 badSepBlock hb⟩

/-- One reference record contributes all but the first sharer of its exact
candidate timestamp to the duplicate bucket, and nothing else there. -/
theorem refContrib_dups (es_subs : List Subtitle) (r : Subtitle) :
    (refContrib es_subs r).duplicates_in_es =
      (atTime es_subs r.timestamp_ms).drop 1 := by
  rcases hat : atTime es_subs r.timestamp_ms with _ | ⟨e0, rest⟩
  · rcases hcl : closeMatches es_subs r.timestamp_ms with _ | ⟨c, cs⟩
    · simp [refContrib, hat, hcl]
    · simp only [refContrib, hat, hcl, emptyIssues]
      split_ifs <;> rfl
  · simp [refContrib, hat]

/-- Counting a candidate with the given timestamp in the accumulated
duplicate contributions: one copy of its per-occurrence count for every
reference record sharing that timestamp. -/
theorem count_dups (es_subs : List Subtitle) (t : Int) (c : Subtitle)
    (hc : c.timestamp_ms = t) (en_subs : List Subtitle) :
    List.count c (listFlat (fun r => (atTime es_subs r.timestamp_ms).drop 1) en_subs) =
      (en_subs.filter (fun r => r.timestamp_ms == t)).length *
        List.count c ((atTime es_subs t).drop 1) := by
  induction en_subs with
  | nil => simp [listFlat]
  | cons x xs ih =>
    simp only [listFlat]
    rw [List.count_append, ih]
    by_cases hx : x.timestamp_ms = t
    · rw [hx]
      simp only [List.filter_cons, hx, beq_self_eq_true, if_true, List.length_cons]
      ring
    · have hzero : List.count c ((atTime es_subs x.timestamp_ms).drop 1) = 0 := by
        rw [List.count_eq_zero]
        intro hmem
        have hmem2 : c ∈ atTime es_subs x.timestamp_ms :=
          List.drop_subset 1 _ hmem
        have hpc := List.of_mem_filter hmem2
        simp only [beq_iff_eq] at hpc
        exact hx (by rw [← hpc, hc])
      rw [hzero]
      have hxf : (x.timestamp_ms == t) = false := by
        simp [hx]
      simp [List.filter_cons, hxf]

/-- Claim C10.  Duplicate flagging is per reference record: the number of
copies of a candidate with timestamp t in the duplicate bucket is the number
of reference records carrying t times the count of the candidate among the
non-first sharers of t, so the bucket can hold the same candidate several
times. -/
theorem duplicates_per_reference (en_subs es_subs : List Subtitle) (t : Int)
    (c : Subtitle) (hc : c.timestamp_ms = t) :
    List.count c (find_sync_issues en_subs es_subs).duplicates_in_es =
      (en_subs.filter (fun r => r.timestamp_ms == t)).length *
        List.count c ((atTime es_subs t).drop 1) := by
  rw [find_sync_issues_eq]
  show List.count c
      (listFlat (fun r => (refContrib es_subs r).duplicates_in_es) en_subs) = _
  have hfun : (fun r => (refContrib es_subs r).duplicates_in_es) =
      (fun r => (atTime es_subs r.timestamp_ms).drop 1) :=
    funext (refContrib_dups es_subs)
  rw [hfun]
  exact count_dups es_subs t c hc en_subs

/-- Witness for claim C10: two reference records share timestamp 100 and two
candidates share it too, so the single non-first candidate appears twice in
the duplicate bucket. -/
theorem duplicates_per_reference_witness :
    List.count (⟨2, "c", "d", "z", 100⟩ : Subtitle)
      (find_sync_issues enDup esDup).duplicates_in_es = 2 := by
  have h := duplicates_per_reference enDup esDup 100 ⟨2, "c", "d", "z", 100⟩ rfl
  rw [h]
  decide

end SrtSync
